import Mathlib

/-!
Shallow embedding of the rpi-modswitch programs — the state-publishing
daemon `modswitchd.c`, the shared utility functions `utils.c`, and the
shared-memory reader `cat4mod.c` — together with theorems settling the
stated properties of the specification against this embedding.

Machine integers are modelled as `Int`/`Nat` with explicit reduction
modulo `2 ^ 64` (for `uintmax_t`) or `2 ^ 8` (for the `uint8_t` shared
byte) where the C code can overflow.  File descriptors are `Int` values
(negative means invalid, as in the source).  System calls with effects
are modelled by explicit traces and a small operating-system state.
-/

namespace Modswitch

/-! ## utils.c -/

/-- Embeds `int_in_list` (utils.c): linear scan of `list` for `value`. -/
def int_in_list (value : Int) (list : List Int) : Bool :=
  list.any (fun x => x == value)

/-- Largest value of the 64-bit `uintmax_t` on the target platform. -/
def UINTMAX_MAX : Nat := 2 ^ 64 - 1

/-- C `isspace` for the default locale, used by `strtoumax` to skip
leading white space. -/
def isCSpace (c : Char) : Bool :=
  c == ' ' || c == '\t' || c == '\n' || c == '\x0b' || c == '\x0c' || c == '\r'

/-- Numeric value of a decimal digit character. -/
def digitVal (c : Char) : Nat := c.toNat - 48

/-- Accumulate a run of leading decimal digits, returning the value read
so far and the unconsumed remainder of the string. -/
def scanDigits (acc : Nat) : List Char → Nat × List Char
  | [] => (acc, [])
  | c :: cs =>
    if c.isDigit then scanDigits (acc * 10 + digitVal c) cs else (acc, c :: cs)

/-- Result of the C library call `strtoumax(str, &endptr, 10)`:
the returned value, the suffix of the input starting at `endptr`,
whether any conversion was performed (`endptr != str`), and whether
`errno` was set to `ERANGE`. -/
structure StrtoumaxOut where
  value : Nat
  rest : List Char
  converted : Bool
  erange : Bool
deriving DecidableEq

/-- Strip the optional single sign character `strtoumax` accepts
after the white space, returning whether the value is to be negated
and the remainder. -/
def signOf (l : List Char) : Bool × List Char :=
  match l with
  | [] => (false, [])
  | c :: cs =>
    if c = '-' then (true, cs)
    else if c = '+' then (false, cs)
    else (false, c :: cs)

/-- Digit-run phase of `strtoumax`: with the sign already consumed,
a nonempty digit run yields its value (negated modulo `2 ^ 64` when
the sign was minus, clamped to `UINTMAX_MAX` with `ERANGE` on
overflow); with no leading digit, no conversion is performed and
`endptr` stays at the original string `orig`. -/
def convertDigits (sign : Bool) (orig : List Char) : List Char → StrtoumaxOut
  | [] => ⟨0, orig, false, false⟩
  | c :: cs =>
    if c.isDigit then
      let out := scanDigits (digitVal c) cs
      if out.1 > UINTMAX_MAX then
        ⟨UINTMAX_MAX, out.2, true, true⟩
      else
        ⟨if sign then (2 ^ 64 - out.1) % 2 ^ 64 else out.1, out.2, true, false⟩
    else ⟨0, orig, false, false⟩

/-- Embeds `strtoumax(str, &endptr, 10)` as specified by C99/POSIX:
skip white space, accept an optional sign, then a nonempty digit run
converted by `convertDigits`. -/
def strtoumax10 (s : List Char) : StrtoumaxOut :=
  let signed := signOf (s.dropWhile isCSpace)
  convertDigits signed.1 s signed.2

/-- Embeds `xstr2umax(str, 10, val)` (utils.c lines 44-55): call
`strtoumax`, fail when the string was not fully consumed or no
conversion happened (`*endptr != '\0' || str == endptr`), fail on
`ERANGE`, otherwise succeed with the converted value.  `some v` models
a `true` return with `*val = v`; `none` models a `false` return. -/
def xstr2umax10 (s : List Char) : Option Nat :=
  let r := strtoumax10 s
  if r.rest ≠ [] ∨ r.converted = false then none
  else if r.erange = true then none
  else some r.value

/-- Value denoted by a list of decimal digit characters, most
significant first (specification-side description of a numeral). -/
def digitsToNat (ds : List Char) : Nat :=
  ds.foldl (fun a c => a * 10 + digitVal c) 0

/-! ## modswitchd.c: configuration -/

/-- Embeds `modswitch_conf_t` (modswitchd.c lines 71-76).  `delay_us`
is the 64-bit `uintmax_t` field, values taken modulo `2 ^ 64`. -/
structure modswitch_conf_t where
  sw0_pin : Int
  sw1_pin : Int
  pullupdown : Int
  delay_us : Nat
deriving DecidableEq

/-- Embeds `modswitch_default_conf` (modswitchd.c lines 84-89). -/
def modswitch_default_conf : modswitch_conf_t := ⟨10, 7, 1, 1000⟩

/-- Embeds `available_switch_gpio` (modswitchd.c lines 91-96). -/
def available_switch_gpio : List Int :=
  [0, 1, 2, 3, 4, 5, 6, 7,
   8, 9, 10, 11, 12, 13, 14, 15,
   16, 17, 18, 19, 20, 21, 22, 23,
   24, 25, 26, 27]

/-- Embeds the `[user] delay_us` branch of `conf_handler`
(modswitchd.c lines 107-108): the handler returns the result of
`xstr2umax(value, 10, &config->delay_us)` directly, so `some v` models
a return of 1 (success, `delay_us` set to `v`) and `none` models a
return of 0, which the ini parser reports as a parse error at that
line and which aborts startup. -/
def conf_handler_delay_us (value : List Char) : Option Nat :=
  xstr2umax10 value

/-- Embeds `conf_checker` (modswitchd.c lines 115-135), minus the
unreachable null-pointer `abort` branch: returns 0 on pass and -1 on
the first failed check, in source order. -/
def conf_checker (conf : modswitch_conf_t) : Int :=
  if int_in_list conf.sw0_pin available_switch_gpio = false then -1
  else if int_in_list conf.sw1_pin available_switch_gpio = false then -1
  else if conf.pullupdown > 1 || conf.pullupdown < 0 then -1
  else 0

/-! ## modswitchd.c: the poll-loop encoder -/

/-- The C conditional `pullupdown ? !x : x` applied to a boolean line
reading: invert the reading exactly when `pullupdown` is truthy. -/
def adjusted (pullupdown : Int) (raw : Bool) : Bool :=
  if pullupdown ≠ 0 then !raw else raw

/-- Numeric value of a boolean line reading as the C `int` holds it. -/
def bit (b : Bool) : Nat := if b then 1 else 0

/-- Embeds the `combined` expression (modswitchd.c line 321):
adjusted `sw1` shifted into the high bit, adjusted `sw0` in the low
bit, masked to two bits. -/
def combined (pullupdown : Int) (sw0 sw1 : Bool) : Nat :=
  ((bit (adjusted pullupdown sw1) <<< 1) ||| bit (adjusted pullupdown sw0)) &&& 0x03

/-- Embeds the store `shm_ptr[0] = combined + '0'` (modswitchd.c line
322): the byte written into the shared segment, reduced modulo `2 ^ 8`
as the `uint8_t` store does (ASCII `'0'` is 48). -/
def encodeByte (pullupdown : Int) (sw0 sw1 : Bool) : Nat :=
  (combined pullupdown sw0 sw1 + 48) % 256

/-! ## modswitchd.c: resource handles, cleanup, and an OS model -/

/-- Embeds the daemon's file-scope resource handles (modswitchd.c
lines 78-82).  `shm_ptr` records C pointer truthiness: `false` for
`NULL`, `true` for any non-null value (including `MAP_FAILED`). -/
structure DaemonGlobals where
  lock_fd : Int
  shm_fd : Int
  shm_ptr : Bool
  gpio_fd : Int
  gpio_line_fd : Int
deriving DecidableEq

/-- Release-type system calls the daemon can issue. -/
inductive SysCall where
  | close (fd : Int)
  | munmapShm
  | shmUnlink
  | flockUnlock (fd : Int)
deriving DecidableEq

/-- Embeds `cleanup` (modswitchd.c lines 137-152) as the trace of
release calls it issues from a given global state, in source order.
Note that the C function never resets the globals, so the state it is
read from is unchanged by a call. -/
def cleanup (g : DaemonGlobals) : List SysCall :=
  (if g.gpio_line_fd ≥ 0 then [SysCall.close g.gpio_line_fd] else []) ++
  (if g.gpio_fd ≥ 0 then [SysCall.close g.gpio_fd] else []) ++
  (if g.shm_ptr then [SysCall.munmapShm] else []) ++
  (if g.shm_fd ≥ 0 then [SysCall.close g.shm_fd, SysCall.shmUnlink] else []) ++
  (if g.lock_fd ≥ 0 then [SysCall.flockUnlock g.lock_fd, SysCall.close g.lock_fd] else [])

/-- Operating-system view of the daemon's resources: which descriptor
numbers are open, whether the shared segment is mapped, and whether
its name is linked. -/
structure OsState where
  openFds : Int → Bool
  shmMapped : Bool
  shmLinked : Bool

/-- Mark a descriptor closed in an open-descriptor table. -/
def closeFd (f : Int → Bool) (fd : Int) : Int → Bool :=
  fun x => if x = fd then false else f x

/-- Effect of one release call on the OS state, together with an error
count: closing or unlocking a descriptor that is not open, unmapping
an unmapped segment, or unlinking an unlinked name is an error
(EBADF/EINVAL/ENOENT), counted as 1. -/
def applySysCall (os : OsState) : SysCall → OsState × Nat
  | SysCall.close fd =>
    if os.openFds fd then ({ os with openFds := closeFd os.openFds fd }, 0)
    else (os, 1)
  | SysCall.munmapShm =>
    if os.shmMapped then ({ os with shmMapped := false }, 0) else (os, 1)
  | SysCall.shmUnlink =>
    if os.shmLinked then ({ os with shmLinked := false }, 0) else (os, 1)
  | SysCall.flockUnlock fd =>
    if os.openFds fd then (os, 0) else (os, 1)

/-- Run a trace of release calls over the OS state, summing errors. -/
def runSysCalls (os : OsState) : List SysCall → OsState × Nat
  | [] => (os, 0)
  | c :: cs =>
    let step := applySysCall os c
    let rest := runSysCalls step.1 cs
    (rest.1, step.2 + rest.2)

/-! ## modswitchd.c: setup_gpio and the instance lock -/

/-- Environment for `setup_gpio`: the result of `open` on the GPIO
chip device (a descriptor, negative on failure), whether the
line-handle ioctl succeeds, and the line descriptor it returns. -/
structure GpioEnv where
  chip_open_res : Int
  ioctl_ok : Bool
  req_fd : Int
deriving DecidableEq

/-- Embeds `setup_gpio` (modswitchd.c lines 161-186): assigns the
`open` result to `gpio_fd`; on `open` failure returns -1; on ioctl
failure closes the chip descriptor (without resetting `gpio_fd`) and
returns -1; on success stores the line descriptor and returns 0.
Result: updated globals, release calls issued, and the return value. -/
def setup_gpio (env : GpioEnv) (g : DaemonGlobals) :
    DaemonGlobals × List SysCall × Int :=
  let g1 := { g with gpio_fd := env.chip_open_res }
  if env.chip_open_res < 0 then (g1, [], -1)
  else if env.ioctl_ok = false then (g1, [SysCall.close env.chip_open_res], -1)
  else ({ g1 with gpio_line_fd := env.req_fd }, [], 0)

/-- Outcome of the non-blocking `flock` call on the lock file. -/
inductive FlockResult where
  | ok
  | ewouldblock
  | otherErr (errno : Nat)
deriving DecidableEq

/-- Diagnostics the lock-acquisition step can emit
(modswitchd.c lines 258-271). -/
inductive LockDiag where
  | cannotOpenLockFile
  | alreadyRunning
  | flockOtherError
deriving DecidableEq

/-- Value of `LOCK_EX` (sys/file.h). -/
def LOCK_EX : Nat := 2

/-- Value of `LOCK_NB` (sys/file.h), the non-blocking flag. -/
def LOCK_NB : Nat := 4

/-- The flag word modswitchd passes to `flock`
(modswitchd.c line 263): `LOCK_EX | LOCK_NB`. -/
def modswitchd_flock_flags : Nat := LOCK_EX ||| LOCK_NB

/-- Embeds the lock-acquisition step (modswitchd.c lines 258-271):
given the `open` result on the lock file and the `flock` outcome,
returns `none` to proceed, or `some (diagnostic, exit code)`. -/
def lockStep (lock_open_fd : Int) (fr : FlockResult) : Option (LockDiag × Int) :=
  if lock_open_fd < 0 then some (LockDiag.cannotOpenLockFile, 1)
  else
    match fr with
    | FlockResult.ok => none
    | FlockResult.ewouldblock => some (LockDiag.alreadyRunning, 1)
    | FlockResult.otherErr _ => some (LockDiag.flockOtherError, 1)

/-! ## modswitchd.c: main and the poll loop -/

/-- One iteration's worth of input to the poll loop: a successful pair
read, a failed read, or delivery of SIGINT/SIGTERM between
iterations. -/
inductive LoopEvent where
  | reading (sw0 sw1 : Bool)
  | readFail
  | sigTerm
deriving DecidableEq

/-- Observable outcome of a daemon run: process exit with a code, the
release calls made on the way out, and the bytes written to the
shared segment; or still looping after the supplied events ran out. -/
inductive RunOutcome where
  | exited (code : Int) (releases : List SysCall) (writes : List Nat)
  | looping (writes : List Nat)
deriving DecidableEq

/-- Bytes written to the shared segment during a run. -/
def writesOf : RunOutcome → List Nat
  | RunOutcome.exited _ _ w => w
  | RunOutcome.looping w => w

/-- Embeds the poll loop (modswitchd.c lines 315-324) together with
the installed `signal_handler` (lines 154-159): each successful read
publishes one encoded byte; a failed read runs `cleanup` and exits 1
(lines 317-319); a signal runs `cleanup` and exits 0 (lines 157-158). -/
def pollLoop (pullupdown : Int) (g : DaemonGlobals) : List LoopEvent → RunOutcome
  | [] => RunOutcome.looping []
  | LoopEvent.readFail :: _ => RunOutcome.exited 1 (cleanup g) []
  | LoopEvent.sigTerm :: _ => RunOutcome.exited 0 (cleanup g) []
  | LoopEvent.reading s0 s1 :: rest =>
    match pollLoop pullupdown g rest with
    | RunOutcome.exited c r w =>
      RunOutcome.exited c r (encodeByte pullupdown s0 s1 :: w)
    | RunOutcome.looping w =>
      RunOutcome.looping (encodeByte pullupdown s0 s1 :: w)

/-- Environment of one daemon invocation: results of the external
calls `main` makes, in program order.  `fork_res` is `none` when
`fork` fails, `some true` in the parent, `some false` in the child. -/
structure Env where
  ini_parse_err : Int
  conf : modswitch_conf_t
  lock_open_fd : Int
  flock_res : FlockResult
  is_daemon : Bool
  fork_res : Option Bool
  setsid_ok : Bool
  gpio : GpioEnv
  shm_open_fd : Int
  mmap_ok : Bool
deriving DecidableEq

/-- Globals right after a fully successful setup: lock held, shared
segment open and mapped, chip and line descriptors stored. -/
def postSetupGlobals (env : Env) : DaemonGlobals :=
  ⟨env.lock_open_fd, env.shm_open_fd, true, env.gpio.chip_open_res, env.gpio.req_fd⟩

/-- Embeds `main` from the configuration load onward
(modswitchd.c lines 242-326), for an invocation whose arguments
parsed: ini parse and validation failures exit 1; lock failures exit
1; under `-D`, a fork failure exits 1, the parent exits 0, a setsid
failure exits 1; a `setup_gpio` failure exits 1 without calling
`cleanup` (line 295); `shm_open` failure (after `shm_fd` was assigned
the failing result) and `mmap` failure (after `shm_ptr` was assigned
`MAP_FAILED`, which is non-null) call `cleanup` and exit 1; then the
poll loop runs over the supplied events. -/
def runDaemon (env : Env) (events : List LoopEvent) : RunOutcome :=
  if env.ini_parse_err < 0 then RunOutcome.exited 1 [] []
  else if env.ini_parse_err ≠ 0 then RunOutcome.exited 1 [] []
  else if conf_checker env.conf ≠ 0 then RunOutcome.exited 1 [] []
  else
    match lockStep env.lock_open_fd env.flock_res with
    | some out => RunOutcome.exited out.2 [] []
    | none =>
      if env.is_daemon ∧ env.fork_res = none then RunOutcome.exited 1 [] []
      else if env.is_daemon ∧ env.fork_res = some true then RunOutcome.exited 0 [] []
      else if env.is_daemon ∧ env.setsid_ok = false then RunOutcome.exited 1 [] []
      else
        let g0 : DaemonGlobals := ⟨env.lock_open_fd, -1, false, -1, -1⟩
        let setup := setup_gpio env.gpio g0
        if setup.2.2 < 0 then RunOutcome.exited 1 setup.2.1 []
        else
          let g2 := { setup.1 with shm_fd := env.shm_open_fd }
          if env.shm_open_fd < 0 then RunOutcome.exited 1 (cleanup g2) []
          else
            let g3 := { g2 with shm_ptr := true }
            if env.mmap_ok = false then RunOutcome.exited 1 (cleanup g3) []
            else pollLoop env.conf.pullupdown g3 events

/-- Setup completes: every step up to the poll loop succeeds (for a
daemonized run, we follow the child). -/
def setupOk (env : Env) : Prop :=
  env.ini_parse_err = 0 ∧ conf_checker env.conf = 0 ∧
  0 ≤ env.lock_open_fd ∧ env.flock_res = FlockResult.ok ∧
  (env.is_daemon = false ∨ (env.fork_res = some false ∧ env.setsid_ok = true)) ∧
  0 ≤ env.gpio.chip_open_res ∧ env.gpio.ioctl_ok = true ∧ 0 ≤ env.gpio.req_fd ∧
  0 ≤ env.shm_open_fd ∧ env.mmap_ok = true

/-- Some setup step fails, in a process that is not the exiting parent
of a daemonizing fork. -/
def setupFails (env : Env) : Prop :=
  ¬(env.is_daemon = true ∧ env.fork_res = some true) ∧
  (env.ini_parse_err ≠ 0 ∨ conf_checker env.conf ≠ 0 ∨
   env.lock_open_fd < 0 ∨ env.flock_res ≠ FlockResult.ok ∨
   (env.is_daemon = true ∧ env.fork_res = none) ∨
   (env.is_daemon = true ∧ env.setsid_ok = false) ∨
   env.gpio.chip_open_res < 0 ∨ env.gpio.ioctl_ok = false ∨
   env.shm_open_fd < 0 ∨ env.mmap_ok = false)

/-! ## cat4mod.c: the reader's loop-until-change mode -/

/-- Embeds the reader's polling loop (cat4mod.c lines 176-197) over
the stream of bytes successive `read_byte` calls return.  With `-c`,
the loop prints and exits 0 as soon as a read byte equals the target
character; without it, as soon as a read byte differs from
`last_byte`.  `none` means the stream was exhausted with the loop
still polling. -/
def cat4modLoop (use_specific : Bool) (specific_char : Nat) (last_byte : Nat) :
    List Nat → Option (Nat × Int)
  | [] => none
  | b :: rest =>
    if use_specific then
      if b == specific_char then some (b, 0)
      else cat4modLoop use_specific specific_char last_byte rest
    else
      if b != last_byte then some (b, 0)
      else cat4modLoop use_specific specific_char last_byte rest

/-- Embeds loop-until-change mode of the reader's `main`
(cat4mod.c lines 170-197): the first read seeds `last_byte`, then the
polling loop consumes the remaining reads. -/
def cat4modLoopMode (use_specific : Bool) (specific_char : Nat) :
    List Nat → Option (Nat × Int)
  | [] => none
  | first :: rest => cat4modLoop use_specific specific_char first rest

/-! ## Helper lemmas -/

lemma int_in_list_available_iff (p : Int) :
    int_in_list p available_switch_gpio = true ↔ 0 ≤ p ∧ p ≤ 27 := by
  simp only [int_in_list, available_switch_gpio, List.any_cons, List.any_nil,
    Bool.or_eq_true, beq_iff_eq, Bool.false_eq_true, or_false]
  omega

lemma conf_checker_eq_zero_iff (conf : modswitch_conf_t) :
    conf_checker conf = 0 ↔
      (0 ≤ conf.sw0_pin ∧ conf.sw0_pin ≤ 27) ∧
      (0 ≤ conf.sw1_pin ∧ conf.sw1_pin ≤ 27) ∧
      (conf.pullupdown = 0 ∨ conf.pullupdown = 1) := by
  have h0 := int_in_list_available_iff conf.sw0_pin
  have h1 := int_in_list_available_iff conf.sw1_pin
  unfold conf_checker
  split_ifs with a b c
  · simp only [show ¬((-1 : Int) = 0) by decide, false_iff]
    intro hcon
    rw [h0.mpr hcon.1] at a
    exact absurd a (by decide)
  · simp only [show ¬((-1 : Int) = 0) by decide, false_iff]
    intro hcon
    rw [h1.mpr hcon.2.1] at b
    exact absurd b (by decide)
  · simp only [show ¬((-1 : Int) = 0) by decide, false_iff]
    simp only [Bool.or_eq_true, decide_eq_true_eq] at c
    intro hcon
    rcases hcon.2.2 with h | h <;> omega
  · simp only [eq_self_iff_true, true_iff]
    refine ⟨h0.mp (by simpa using a), h1.mp (by simpa using b), ?_⟩
    simp only [Bool.or_eq_true, decide_eq_true_eq, not_or, not_lt] at c
    omega

lemma conf_checker_values (conf : modswitch_conf_t) :
    conf_checker conf = 0 ∨ conf_checker conf = -1 := by
  unfold conf_checker
  split_ifs <;> simp

lemma encodeByte_range (pull : Int) (s0 s1 : Bool) :
    encodeByte pull s0 s1 = 48 ∨ encodeByte pull s0 s1 = 49 ∨
    encodeByte pull s0 s1 = 50 ∨ encodeByte pull s0 s1 = 51 := by
  have h : combined pull s0 s1 ≤ 3 := Nat.and_le_right
  have h2 : encodeByte pull s0 s1 = combined pull s0 s1 + 48 := by
    unfold encodeByte
    exact Nat.mod_eq_of_lt (by omega)
  omega

/-! ## C1 -/

/-- C1: for every pair of raw line readings and both pull modes (0 =
PULL_DOWN, 1 = PULL_UP), the poll-loop encoding inverts both readings
exactly when the pull mode is PULL_UP, composes the adjusted sw1 as
the high bit and the adjusted sw0 as the low bit, masks to two bits,
adds the ASCII code of '0' (48), and lands in {'0','1','2','3'}. -/
theorem C1_poll_loop_encoding (sw0 sw1 : Bool) (pull : Int)
    (h : pull = 0 ∨ pull = 1) :
    encodeByte pull sw0 sw1 =
      48 + (2 * bit (if pull = 1 then !sw1 else sw1) +
            bit (if pull = 1 then !sw0 else sw0)) % 4 ∧
    (encodeByte pull sw0 sw1 = 48 ∨ encodeByte pull sw0 sw1 = 49 ∨
     encodeByte pull sw0 sw1 = 50 ∨ encodeByte pull sw0 sw1 = 51) := by
  rcases h with h | h <;> subst h <;> cases sw0 <;> cases sw1 <;> decide

/-- Witness for C1 at pull mode PULL_UP with readings (sw0, sw1) =
(false, true). -/
theorem C1_poll_loop_encoding_witness :
    encodeByte 1 false true =
      48 + (2 * bit (if (1 : Int) = 1 then !true else true) +
            bit (if (1 : Int) = 1 then !false else false)) % 4 ∧
    (encodeByte 1 false true = 48 ∨ encodeByte 1 false true = 49 ∨
     encodeByte 1 false true = 50 ∨ encodeByte 1 false true = 51) :=
  C1_poll_loop_encoding false true 1 (Or.inr rfl)

/-! ## C3 -/

/-- C3: the configuration validator passes exactly when sw0_pin and
sw1_pin are both in the usable-pin set 0..27 and pullupdown is 0 or
1; whenever any one condition is violated it returns -1, a non-zero
value. -/
theorem C3_conf_checker_pass_iff (conf : modswitch_conf_t) :
    (conf_checker conf = 0 ↔
      (0 ≤ conf.sw0_pin ∧ conf.sw0_pin ≤ 27) ∧
      (0 ≤ conf.sw1_pin ∧ conf.sw1_pin ≤ 27) ∧
      (conf.pullupdown = 0 ∨ conf.pullupdown = 1)) ∧
    (¬((0 ≤ conf.sw0_pin ∧ conf.sw0_pin ≤ 27) ∧
       (0 ≤ conf.sw1_pin ∧ conf.sw1_pin ≤ 27) ∧
       (conf.pullupdown = 0 ∨ conf.pullupdown = 1)) →
      conf_checker conf = -1) := by
  refine ⟨conf_checker_eq_zero_iff conf, fun hviol => ?_⟩
  rcases conf_checker_values conf with h | h
  · exact absurd ((conf_checker_eq_zero_iff conf).mp h) hviol
  · exact h

/-! ## C6 -/

/-- C6: the flock call is non-blocking (LOCK_NB is set in the flag
word), contention (EWOULDBLOCK) produces the distinct already-running
diagnostic with exit code 1, any other flock error produces a
different diagnostic also with exit code 1, and both codes are
non-zero. -/
theorem C6_second_instance_lock :
    modswitchd_flock_flags &&& LOCK_NB ≠ 0 ∧
    (∀ fd : Int, 0 ≤ fd →
      lockStep fd FlockResult.ewouldblock = some (LockDiag.alreadyRunning, 1)) ∧
    (∀ (fd : Int) (e : Nat), 0 ≤ fd →
      lockStep fd (FlockResult.otherErr e) = some (LockDiag.flockOtherError, 1)) ∧
    LockDiag.alreadyRunning ≠ LockDiag.flockOtherError ∧ (1 : Int) ≠ 0 := by
  refine ⟨by decide, fun fd h => ?_, fun fd e h => ?_, by decide, by decide⟩
  · have hn : ¬fd < 0 := not_lt.mpr h
    simp [lockStep, hn]
  · have hn : ¬fd < 0 := not_lt.mpr h
    simp [lockStep, hn]

/-- Witness for C6 at lock descriptor 3 and errno 13 for the other
error. -/
theorem C6_second_instance_lock_witness :
    lockStep 3 FlockResult.ewouldblock = some (LockDiag.alreadyRunning, 1) ∧
    lockStep 3 (FlockResult.otherErr 13) = some (LockDiag.flockOtherError, 1) :=
  ⟨C6_second_instance_lock.2.1 3 (by decide),
   C6_second_instance_lock.2.2.1 3 13 (by decide)⟩

/-! ## C8 -/

/-- C8: a configuration with equal switch pins in the usable set (and
a recognized pull mode) passes the validator, and with both switches
wired to one line every poll publishes '0' (48) or '3' (51), never
'1' (49) or '2' (50). -/
theorem C8_duplicate_pin_degenerate (conf : modswitch_conf_t)
    (heq : conf.sw0_pin = conf.sw1_pin)
    (hlo : 0 ≤ conf.sw0_pin) (hhi : conf.sw0_pin ≤ 27)
    (hp : conf.pullupdown = 0 ∨ conf.pullupdown = 1) :
    conf_checker conf = 0 ∧
    ∀ v : Bool,
      (encodeByte conf.pullupdown v v = 48 ∨ encodeByte conf.pullupdown v v = 51) ∧
      encodeByte conf.pullupdown v v ≠ 49 ∧ encodeByte conf.pullupdown v v ≠ 50 := by
  refine ⟨(conf_checker_eq_zero_iff conf).mpr ⟨⟨hlo, hhi⟩, ⟨heq ▸ hlo, heq ▸ hhi⟩, hp⟩, ?_⟩
  intro v
  rcases hp with h | h <;> rw [h] <;> cases v <;> decide

/-- Witness for C8 at the configuration with both pins 7, pull mode
1. -/
theorem C8_duplicate_pin_degenerate_witness :
    conf_checker ⟨7, 7, 1, 1000⟩ = 0 ∧
    ∀ v : Bool,
      (encodeByte (modswitch_conf_t.pullupdown ⟨7, 7, 1, 1000⟩) v v = 48 ∨
       encodeByte (modswitch_conf_t.pullupdown ⟨7, 7, 1, 1000⟩) v v = 51) ∧
      encodeByte (modswitch_conf_t.pullupdown ⟨7, 7, 1, 1000⟩) v v ≠ 49 ∧
      encodeByte (modswitch_conf_t.pullupdown ⟨7, 7, 1, 1000⟩) v v ≠ 50 :=
  C8_duplicate_pin_degenerate ⟨7, 7, 1, 1000⟩ rfl (by decide) (by decide)
    (Or.inr rfl)

/-! ## C10 -/

/-- C10: in loop-until-change mode with a target character, when the
published byte already equals the target at the first poll the reader
prints it and exits 0 at once, regardless of later reads, even though
the byte has not changed from the seeded last_byte. -/
theorem C10_reader_immediate_match (c : Nat) (rest : List Nat) :
    cat4modLoopMode true c (c :: c :: rest) = some (c, 0) := by
  simp [cat4modLoopMode, cat4modLoop]

/-! ## C2 -/

lemma pollLoop_writes_mem (pull : Int) (g : DaemonGlobals)
    (events : List LoopEvent) (b : Nat)
    (hb : b ∈ writesOf (pollLoop pull g events)) :
    b = 48 ∨ b = 49 ∨ b = 50 ∨ b = 51 := by
  induction events with
  | nil => simp [pollLoop, writesOf] at hb
  | cons e rest ih =>
    cases e with
    | readFail => simp [pollLoop, writesOf] at hb
    | sigTerm => simp [pollLoop, writesOf] at hb
    | reading s0 s1 =>
      cases hrec : pollLoop pull g rest with
      | exited c r w =>
        rw [pollLoop, hrec] at hb
        simp only [writesOf, List.mem_cons] at hb
        rcases hb with hb | hb
        · exact hb ▸ encodeByte_range pull s0 s1
        · exact ih (by rw [hrec]; exact hb)
      | looping w =>
        rw [pollLoop, hrec] at hb
        simp only [writesOf, List.mem_cons] at hb
        rcases hb with hb | hb
        · exact hb ▸ encodeByte_range pull s0 s1
        · exact ih (by rw [hrec]; exact hb)

/-- C2: every byte a daemon run writes into the shared-memory byte is
the ASCII code of '0', '1', '2' or '3' (48..51), for every
environment, every sequence of line readings, and every pull mode. -/
lemma runDaemon_writes_shape (env : Env) (events : List LoopEvent) :
    writesOf (runDaemon env events) = [] ∨
    ∃ g, runDaemon env events = pollLoop env.conf.pullupdown g events := by
  unfold runDaemon
  repeat
    first
    | exact Or.inr ⟨_, rfl⟩
    | exact Or.inl rfl
    | split
    | simp only []

theorem C2_shared_byte_always_digit (env : Env) (events : List LoopEvent)
    (b : Nat) (hb : b ∈ writesOf (runDaemon env events)) :
    b = 48 ∨ b = 49 ∨ b = 50 ∨ b = 51 := by
  rcases runDaemon_writes_shape env events with h | ⟨g, h⟩
  · rw [h] at hb
    exact absurd hb (List.not_mem_nil b)
  · rw [h] at hb
    exact pollLoop_writes_mem _ _ _ _ hb

/-- Witness for C2: a successful run over one reading writes 51
('3'). -/
theorem C2_shared_byte_always_digit_witness :
    51 ∈ writesOf (runDaemon
        ⟨0, modswitch_default_conf, 3, FlockResult.ok, false, some false, true,
         ⟨4, true, 6⟩, 5, true⟩
        [LoopEvent.reading false false]) ∧
    ((51 : Nat) = 48 ∨ (51 : Nat) = 49 ∨ (51 : Nat) = 50 ∨ (51 : Nat) = 51) :=
  ⟨by decide, C2_shared_byte_always_digit
    ⟨0, modswitch_default_conf, 3, FlockResult.ok, false, some false, true,
     ⟨4, true, 6⟩, 5, true⟩
    [LoopEvent.reading false false] 51 (by decide)⟩

/-! ## C5 -/

lemma cleanup_full_trace (g : DaemonGlobals)
    (hl : 0 ≤ g.lock_fd) (hs : 0 ≤ g.shm_fd) (hp : g.shm_ptr = true)
    (hg : 0 ≤ g.gpio_fd) (hgl : 0 ≤ g.gpio_line_fd) :
    cleanup g = [SysCall.close g.gpio_line_fd, SysCall.close g.gpio_fd,
      SysCall.munmapShm, SysCall.close g.shm_fd, SysCall.shmUnlink,
      SysCall.flockUnlock g.lock_fd, SysCall.close g.lock_fd] := by
  simp [cleanup, hp, ge_iff_le, hl, hs, hg, hgl]

/-- Counterexample to C5 as stated: at the fully-acquired state with
lock_fd 3, shm_fd 5, a mapped segment, gpio_fd 4 and gpio_line_fd 6,
cleanup closes the hardware line descriptor first (index 0) and only
unmaps the shared segment afterwards (index 2), so the shared-memory
segment is not released before the hardware line handle. -/
theorem C5_counterexample :
    cleanup ⟨3, 5, true, 4, 6⟩ =
      [SysCall.close 6, SysCall.close 4, SysCall.munmapShm,
       SysCall.close 5, SysCall.shmUnlink,
       SysCall.flockUnlock 3, SysCall.close 3] ∧
    ¬ (cleanup ⟨3, 5, true, 4, 6⟩).indexOf SysCall.munmapShm <
        (cleanup ⟨3, 5, true, 4, 6⟩).indexOf (SysCall.close 6) := by
  decide

/-- C5 amended: on shutdown from a fully-acquired state, cleanup
releases the hardware line handle first (line descriptor, then chip
descriptor), then the shared-memory segment (unmap, close, unlink),
and the instance lock last — the lock is released last as
reverse-acquisition order predicts, but hardware and shared memory
are released in acquisition order, not reverse. -/
theorem C5_amended_release_order (g : DaemonGlobals)
    (hl : 0 ≤ g.lock_fd) (hs : 0 ≤ g.shm_fd) (hp : g.shm_ptr = true)
    (hg : 0 ≤ g.gpio_fd) (hgl : 0 ≤ g.gpio_line_fd) :
    cleanup g = [SysCall.close g.gpio_line_fd, SysCall.close g.gpio_fd,
      SysCall.munmapShm, SysCall.close g.shm_fd, SysCall.shmUnlink,
      SysCall.flockUnlock g.lock_fd, SysCall.close g.lock_fd] :=
  cleanup_full_trace g hl hs hp hg hgl

/-- Witness for C5 amended at the state with descriptors 10..13. -/
theorem C5_amended_release_order_witness :
    cleanup ⟨10, 11, true, 12, 13⟩ =
      [SysCall.close 13, SysCall.close 12, SysCall.munmapShm,
       SysCall.close 11, SysCall.shmUnlink,
       SysCall.flockUnlock 10, SysCall.close 10] :=
  C5_amended_release_order ⟨10, 11, true, 12, 13⟩ (by decide) (by decide) rfl
    (by decide) (by decide)

/-! ## C4 -/

/-- Counterexample to C4 as stated: from the fully-acquired state (the
same one as above, with the OS holding descriptors 3, 4, 5, 6 open
and the segment mapped and linked) a first cleanup call releases
everything without error, but — because cleanup never resets the
globals — a second call re-issues every release on the already-closed
descriptors and already-released segment: all 7 calls fail. -/
theorem C4_counterexample :
    (runSysCalls
        ⟨fun x => x == 3 || x == 4 || x == 5 || x == 6, true, true⟩
        (cleanup ⟨3, 5, true, 4, 6⟩)).2 = 0 ∧
    (runSysCalls
        (runSysCalls
          ⟨fun x => x == 3 || x == 4 || x == 5 || x == 6, true, true⟩
          (cleanup ⟨3, 5, true, 4, 6⟩)).1
        (cleanup ⟨3, 5, true, 4, 6⟩)).2 = 7 := by
  exact ⟨rfl, rfl⟩

/-- C4 amended: each release in cleanup is guarded by an apparent
validity check, so a single call from a state consistent with the OS
releases every resource without error (each descriptor closed exactly
once), and a call on the never-acquired record (all handles invalid)
performs no release at all; but cleanup never invalidates the record,
so a second call after the resources were actually released re-issues
the close calls and fails — cleanup is not idempotent.  The partial
acquisition path of setup_gpio (line-request ioctl failure) closes
the chip descriptor exactly once before returning -1, so the
descriptor is neither leaked nor double-closed within that call. -/
theorem C4_amended_cleanup_once (g : DaemonGlobals) (os : OsState)
    (hl : 0 ≤ g.lock_fd) (hs : 0 ≤ g.shm_fd) (hp : g.shm_ptr = true)
    (hg : 0 ≤ g.gpio_fd) (hgl : 0 ≤ g.gpio_line_fd)
    (d1 : g.gpio_line_fd ≠ g.gpio_fd) (d2 : g.gpio_line_fd ≠ g.shm_fd)
    (d3 : g.gpio_line_fd ≠ g.lock_fd) (d4 : g.gpio_fd ≠ g.shm_fd)
    (d5 : g.gpio_fd ≠ g.lock_fd) (d6 : g.shm_fd ≠ g.lock_fd)
    (o1 : os.openFds g.gpio_line_fd = true) (o2 : os.openFds g.gpio_fd = true)
    (o3 : os.openFds g.shm_fd = true) (o4 : os.openFds g.lock_fd = true)
    (om : os.shmMapped = true) (ol : os.shmLinked = true) :
    (runSysCalls os (cleanup g)).2 = 0 ∧
    (runSysCalls (runSysCalls os (cleanup g)).1 (cleanup g)).2 ≠ 0 ∧
    cleanup ⟨-1, -1, false, -1, -1⟩ = [] ∧
    (∀ (env : GpioEnv) (g2 : DaemonGlobals), 0 ≤ env.chip_open_res →
      env.ioctl_ok = false →
      (setup_gpio env g2).2.1 = [SysCall.close env.chip_open_res] ∧
      (setup_gpio env g2).2.2 = -1) := by
  have htr := cleanup_full_trace g hl hs hp hg hgl
  refine ⟨?_, ?_, rfl, ?_⟩
  · rw [htr]
    simp [runSysCalls, applySysCall, closeFd, o1, o2, o3, o4, om, ol,
      d1, d2, d3, d4, d5, d6, d1.symm, d2.symm, d3.symm, d4.symm, d5.symm,
      d6.symm]
  · rw [htr]
    simp [runSysCalls, applySysCall, closeFd, o1, o2, o3, o4, om, ol,
      d1, d2, d3, d4, d5, d6, d1.symm, d2.symm, d3.symm, d4.symm, d5.symm,
      d6.symm]
  · intro env g2 hop hio
    have hn : ¬env.chip_open_res < 0 := not_lt.mpr hop
    simp [setup_gpio, hn, hio]

/-- Witness for C4 amended at the concrete state with descriptors 3,
4, 5, 6 all open, mapped and linked, and a failed line request on
chip descriptor 4. -/
theorem C4_amended_cleanup_once_witness :
    (runSysCalls
        ⟨fun x => x == 3 || x == 4 || x == 5 || x == 6, true, true⟩
        (cleanup ⟨3, 5, true, 4, 6⟩)).2 = 0 ∧
    (runSysCalls
        (runSysCalls
          ⟨fun x => x == 3 || x == 4 || x == 5 || x == 6, true, true⟩
          (cleanup ⟨3, 5, true, 4, 6⟩)).1
        (cleanup ⟨3, 5, true, 4, 6⟩)).2 ≠ 0 ∧
    cleanup ⟨-1, -1, false, -1, -1⟩ = [] ∧
    (∀ (env : GpioEnv) (g2 : DaemonGlobals), 0 ≤ env.chip_open_res →
      env.ioctl_ok = false →
      (setup_gpio env g2).2.1 = [SysCall.close env.chip_open_res] ∧
      (setup_gpio env g2).2.2 = -1) :=
  C4_amended_cleanup_once ⟨3, 5, true, 4, 6⟩
    ⟨fun x => x == 3 || x == 4 || x == 5 || x == 6, true, true⟩
    (by decide) (by decide) rfl (by decide) (by decide)
    (by decide) (by decide) (by decide) (by decide) (by decide) (by decide)
    rfl rfl rfl rfl rfl rfl

/-! ## C9 -/

lemma pollLoop_signal_first (pull : Int) (g : DaemonGlobals)
    (pre rest : List LoopEvent)
    (hpre : ∀ e ∈ pre, ∃ s0 s1, e = LoopEvent.reading s0 s1) :
    ∃ w, pollLoop pull g (pre ++ LoopEvent.sigTerm :: rest) =
      RunOutcome.exited 0 (cleanup g) w := by
  induction pre with
  | nil => exact ⟨[], rfl⟩
  | cons e pre ih =>
    obtain ⟨s0, s1, rfl⟩ := hpre e (List.mem_cons_self e pre)
    obtain ⟨w, hw⟩ := ih (fun e he => hpre e (List.mem_cons_of_mem _ he))
    refine ⟨encodeByte pull s0 s1 :: w, ?_⟩
    rw [List.cons_append, pollLoop, hw]

lemma runDaemon_setupOk (env : Env) (events : List LoopEvent)
    (h : setupOk env) :
    runDaemon env events =
      pollLoop env.conf.pullupdown (postSetupGlobals env) events := by
  obtain ⟨h1, h2, h3, h4, h5, h6, h7, h8, h9, h10⟩ := h
  have hn3 : ¬env.lock_open_fd < 0 := not_lt.mpr h3
  have hn6 : ¬env.gpio.chip_open_res < 0 := not_lt.mpr h6
  have hn9 : ¬env.shm_open_fd < 0 := not_lt.mpr h9
  rcases h5 with h5 | ⟨h5a, h5b⟩
  · simp [runDaemon, lockStep, setup_gpio, postSetupGlobals,
      h1, h2, h4, hn3, hn6, h7, hn9, h10, h5]
  · simp [runDaemon, lockStep, setup_gpio, postSetupGlobals,
      h1, h2, h4, hn3, hn6, h7, hn9, h10, h5a, h5b]

/-- C9: whenever the daemon receives SIGINT/SIGTERM after a fully
successful setup (possibly after some successful poll iterations), it
exits with status 0 having run the full cleanup sequence — releasing
the hardware line descriptor, unmapping, closing and unlinking the
shared segment, and unlocking the instance lock — and every setup
failure instead exits with the non-zero status 1. -/
theorem C9_signal_cleanup_and_setup_failure :
    (∀ (env : Env) (pre rest : List LoopEvent), setupOk env →
      (∀ e ∈ pre, ∃ s0 s1, e = LoopEvent.reading s0 s1) →
      ∃ w, runDaemon env (pre ++ LoopEvent.sigTerm :: rest) =
          RunOutcome.exited 0 (cleanup (postSetupGlobals env)) w ∧
        SysCall.close (postSetupGlobals env).gpio_line_fd ∈
          cleanup (postSetupGlobals env) ∧
        SysCall.munmapShm ∈ cleanup (postSetupGlobals env) ∧
        SysCall.shmUnlink ∈ cleanup (postSetupGlobals env) ∧
        SysCall.flockUnlock (postSetupGlobals env).lock_fd ∈
          cleanup (postSetupGlobals env)) ∧
    (∀ (env : Env) (events : List LoopEvent), setupFails env →
      ∃ r w, runDaemon env events = RunOutcome.exited 1 r w) := by
  constructor
  · intro env pre rest hok hpre
    obtain ⟨w, hw⟩ :=
      pollLoop_signal_first env.conf.pullupdown (postSetupGlobals env) pre rest hpre
    refine ⟨w, ?_, ?_, ?_, ?_, ?_⟩
    · rw [runDaemon_setupOk env _ hok, hw]
    all_goals
      obtain ⟨h1, h2, h3, h4, h5, h6, h7, h8, h9, h10⟩ := hok
      rw [cleanup_full_trace (postSetupGlobals env) h3 h9 rfl h6 h8]
      simp [postSetupGlobals]
  · intro env events hsf
    obtain ⟨hnp, hd⟩ := hsf
    simp only [runDaemon]
    by_cases c1 : env.ini_parse_err < 0
    · rw [if_pos c1]; exact ⟨[], [], rfl⟩
    rw [if_neg c1]
    by_cases c2 : env.ini_parse_err ≠ 0
    · rw [if_pos c2]; exact ⟨[], [], rfl⟩
    rw [if_neg c2]
    by_cases c3 : conf_checker env.conf ≠ 0
    · rw [if_pos c3]; exact ⟨[], [], rfl⟩
    rw [if_neg c3]
    by_cases c4 : env.lock_open_fd < 0
    · rw [show lockStep env.lock_open_fd env.flock_res =
          some (LockDiag.cannotOpenLockFile, 1) from by simp [lockStep, c4]]
      exact ⟨[], [], rfl⟩
    by_cases c5 : env.flock_res = FlockResult.ok
    case neg =>
      cases hfr : env.flock_res with
      | ok => exact absurd hfr c5
      | ewouldblock =>
        rw [show lockStep env.lock_open_fd FlockResult.ewouldblock =
            some (LockDiag.alreadyRunning, 1) from by simp [lockStep, c4]]
        exact ⟨[], [], rfl⟩
      | otherErr e =>
        rw [show lockStep env.lock_open_fd (FlockResult.otherErr e) =
            some (LockDiag.flockOtherError, 1) from by simp [lockStep, c4]]
        exact ⟨[], [], rfl⟩
    case pos =>
    rw [show lockStep env.lock_open_fd env.flock_res = none from by
      simp [lockStep, c4, c5]]
    by_cases c6 : env.is_daemon = true ∧ env.fork_res = none
    · rw [if_pos c6]; exact ⟨[], [], rfl⟩
    rw [if_neg c6]
    by_cases c7 : env.is_daemon = true ∧ env.fork_res = some true
    · exact absurd c7 hnp
    rw [if_neg c7]
    by_cases c8 : env.is_daemon = true ∧ env.setsid_ok = false
    · rw [if_pos c8]; exact ⟨[], [], rfl⟩
    rw [if_neg c8]
    by_cases c9 : env.gpio.chip_open_res < 0
    · rw [if_pos (show (setup_gpio env.gpio
          ⟨env.lock_open_fd, -1, false, -1, -1⟩).2.2 < 0 by
            simp [setup_gpio, c9])]
      exact ⟨_, [], rfl⟩
    by_cases c10 : env.gpio.ioctl_ok = false
    · rw [if_pos (show (setup_gpio env.gpio
          ⟨env.lock_open_fd, -1, false, -1, -1⟩).2.2 < 0 by
            simp [setup_gpio, c9, c10])]
      exact ⟨_, [], rfl⟩
    rw [if_neg (show ¬(setup_gpio env.gpio
        ⟨env.lock_open_fd, -1, false, -1, -1⟩).2.2 < 0 by
          simp [setup_gpio, c9, c10])]
    by_cases c11 : env.shm_open_fd < 0
    · rw [if_pos c11]; exact ⟨_, [], rfl⟩
    rw [if_neg c11]
    by_cases c12 : env.mmap_ok = false
    · rw [if_pos c12]; exact ⟨_, [], rfl⟩
    rcases hd with h | h | h | h | h | h | h | h | h | h
    · exact absurd h c2
    · exact absurd h c3
    · exact absurd h c4
    · exact absurd c5 h
    · exact absurd h c6
    · exact absurd h c8
    · exact absurd h c9
    · exact absurd h c10
    · exact absurd h c11
    · exact absurd h c12

/-- Concrete environment whose every setup step succeeds: the default
configuration, lock descriptor 3, chip descriptor 4, shared-memory
descriptor 5, line descriptor 6, no daemonization. -/
def envOkSample : Env :=
  ⟨0, modswitch_default_conf, 3, FlockResult.ok, false, some false, true,
   ⟨4, true, 6⟩, 5, true⟩

/-- Witness for C9: a signal as the first event after a successful
setup, and a failed mmap as the setup failure. -/
theorem C9_signal_cleanup_and_setup_failure_witness :
    (∃ w, runDaemon envOkSample ([] ++ LoopEvent.sigTerm :: []) =
        RunOutcome.exited 0 (cleanup (postSetupGlobals envOkSample)) w ∧
      SysCall.close (postSetupGlobals envOkSample).gpio_line_fd ∈
        cleanup (postSetupGlobals envOkSample) ∧
      SysCall.munmapShm ∈ cleanup (postSetupGlobals envOkSample) ∧
      SysCall.shmUnlink ∈ cleanup (postSetupGlobals envOkSample) ∧
      SysCall.flockUnlock (postSetupGlobals envOkSample).lock_fd ∈
        cleanup (postSetupGlobals envOkSample)) ∧
    (∃ r w, runDaemon { envOkSample with mmap_ok := false } [] =
      RunOutcome.exited 1 r w) :=
  ⟨C9_signal_cleanup_and_setup_failure.1 envOkSample [] []
      (by unfold setupOk; decide)
      (fun e he => absurd he (List.not_mem_nil e)),
   C9_signal_cleanup_and_setup_failure.2 { envOkSample with mmap_ok := false }
      [] (by unfold setupFails; decide)⟩

/-! ## C7 -/

lemma isCSpace_eq_false_of_isDigit (c : Char) (h : c.isDigit = true) :
    isCSpace c = false := by
  unfold Char.isDigit at h
  simp only [Bool.and_eq_true, decide_eq_true_eq, ge_iff_le] at h
  unfold isCSpace
  simp only [Bool.or_eq_false_iff, beq_eq_false_iff_ne, ne_eq]
  refine ⟨⟨⟨⟨⟨?_, ?_⟩, ?_⟩, ?_⟩, ?_⟩, ?_⟩ <;> rintro rfl <;> revert h <;> decide

lemma dropWhile_space_append (ws r : List Char)
    (hws : ∀ c ∈ ws, isCSpace c = true)
    (hr : ∀ c, r.head? = some c → isCSpace c = false) :
    (ws ++ r).dropWhile isCSpace = r := by
  induction ws with
  | nil =>
    cases r with
    | nil => rfl
    | cons c cs =>
      have := hr c rfl
      simp [List.dropWhile_cons, this]
  | cons w ws ih =>
    have hw := hws w (List.mem_cons_self w ws)
    simp only [List.cons_append, List.dropWhile_cons, hw, if_true]
    exact ih (fun c hc => hws c (List.mem_cons_of_mem _ hc))

lemma scanDigits_all_digits (cs : List Char) (acc : Nat)
    (h : ∀ c ∈ cs, c.isDigit = true) :
    scanDigits acc cs = (cs.foldl (fun a c => a * 10 + digitVal c) acc, []) := by
  induction cs generalizing acc with
  | nil => simp [scanDigits]
  | cons c cs ih =>
    have hc := h c (List.mem_cons_self c cs)
    rw [scanDigits, if_pos hc, ih _ (fun d hd => h d (List.mem_cons_of_mem _ hd))]
    simp

lemma scanDigits_rest_nil (cs : List Char) (acc v : Nat)
    (h : scanDigits acc cs = (v, [])) : ∀ c ∈ cs, c.isDigit = true := by
  induction cs generalizing acc with
  | nil => simp
  | cons c cs ih =>
    intro d hd
    rw [scanDigits] at h
    by_cases hc : c.isDigit = true
    · rw [if_pos hc] at h
      rcases List.mem_cons.mp hd with rfl | hd2
      · exact hc
      · exact ih _ h d hd2
    · rw [if_neg hc] at h
      simp at h

lemma ne_sign_of_isDigit (c : Char) (h : c.isDigit = true) :
    c ≠ '-' ∧ c ≠ '+' := by
  constructor <;> rintro rfl <;> revert h <;> decide

lemma digitsToNat_cons (c : Char) (cs : List Char) :
    digitsToNat (c :: cs) =
      cs.foldl (fun a c => a * 10 + digitVal c) (digitVal c) := by
  simp [digitsToNat]

lemma xstr2umax10_accepts (ws sgn ds : List Char)
    (hws : ∀ c ∈ ws, isCSpace c = true)
    (hsgn : sgn = [] ∨ sgn = ['+'] ∨ sgn = ['-']) (hne : ds ≠ [])
    (hdig : ∀ c ∈ ds, c.isDigit = true)
    (hle : digitsToNat ds ≤ UINTMAX_MAX) :
    xstr2umax10 (ws ++ sgn ++ ds) =
      some (if sgn = ['-'] then (2 ^ 64 - digitsToNat ds) % 2 ^ 64
            else digitsToNat ds) := by
  cases ds with
  | nil => exact absurd rfl hne
  | cons d ds' =>
  have hd : d.isDigit = true := hdig d (List.mem_cons_self d ds')
  have hscan : scanDigits (digitVal d) ds' =
      (digitsToNat (d :: ds'), []) := by
    rw [scanDigits_all_digits ds' (digitVal d)
      (fun c hc => hdig c (List.mem_cons_of_mem _ hc)), digitsToNat_cons]
  have hdrop : (ws ++ sgn ++ (d :: ds')).dropWhile isCSpace =
      sgn ++ (d :: ds') := by
    rw [List.append_assoc]
    refine dropWhile_space_append ws (sgn ++ (d :: ds')) hws ?_
    rcases hsgn with rfl | rfl | rfl
    · intro c hc
      simp only [List.nil_append, List.head?_cons, Option.some_inj] at hc
      exact hc ▸ isCSpace_eq_false_of_isDigit d hd
    · intro c hc
      simp only [List.cons_append, List.head?_cons, Option.some_inj] at hc
      subst hc; decide
    · intro c hc
      simp only [List.cons_append, List.head?_cons, Option.some_inj] at hc
      subst hc; decide
  have hnotgt : ¬digitsToNat (d :: ds') > UINTMAX_MAX := not_lt.mpr hle
  rcases hsgn with rfl | rfl | rfl
  · obtain ⟨hm, hp⟩ := ne_sign_of_isDigit d hd
    have hsign : signOf (d :: ds') = (false, d :: ds') := by
      simp [signOf, hm, hp]
    simp only [List.append_assoc, List.cons_append, List.nil_append,
      List.append_nil] at hdrop ⊢
    unfold xstr2umax10 strtoumax10
    simp [hdrop, hsign, convertDigits, hd, hscan, hnotgt]
  · have hsign : signOf ('+' :: d :: ds') = (false, d :: ds') := by
      simp [signOf]
    simp only [List.append_assoc, List.cons_append, List.nil_append,
      List.append_nil] at hdrop ⊢
    unfold xstr2umax10 strtoumax10
    simp [hdrop, hsign, convertDigits, hd, hscan, hnotgt]
  · have hsign : signOf ('-' :: d :: ds') = (true, d :: ds') := by
      simp [signOf]
    simp only [List.append_assoc, List.cons_append, List.nil_append,
      List.append_nil] at hdrop ⊢
    unfold xstr2umax10 strtoumax10
    simp [hdrop, hsign, convertDigits, hd, hscan, hnotgt]

lemma xstr2umax10_some_shape (s : List Char) (v : Nat)
    (h : xstr2umax10 s = some v) :
    ∃ ws sgn ds, s = ws ++ sgn ++ ds ∧ (∀ c ∈ ws, isCSpace c = true) ∧
      (sgn = [] ∨ sgn = ['+'] ∨ sgn = ['-']) ∧ ds ≠ [] ∧
      (∀ c ∈ ds, c.isDigit = true) ∧ digitsToNat ds ≤ UINTMAX_MAX := by
  have hsplit : s.takeWhile isCSpace ++ s.dropWhile isCSpace = s :=
    List.takeWhile_append_dropWhile isCSpace s
  have hws : ∀ c ∈ s.takeWhile isCSpace, isCSpace c = true :=
    fun c hc => List.mem_takeWhile_imp hc
  unfold xstr2umax10 strtoumax10 at h
  cases ht : s.dropWhile isCSpace with
  | nil =>
    rw [ht] at h
    simp [signOf, convertDigits] at h
  | cons a u =>
    rw [ht] at h hsplit
    simp only [] at h
    by_cases ha1 : a = '-'
    · subst ha1
      simp only [show signOf ('-' :: u) = (true, u) from by simp [signOf]] at h
      cases u with
      | nil => simp [convertDigits] at h
      | cons c cs =>
        by_cases hc : c.isDigit = true
        case neg => simp [convertDigits, hc] at h
        case pos =>
        rcases hscan : scanDigits (digitVal c) cs with ⟨w, rest⟩
        by_cases hgt : w > UINTMAX_MAX
        · simp [convertDigits, hc, hscan, hgt] at h
        · have hrest : rest = [] := by
            by_contra hrne
            simp [convertDigits, hc, hscan, hgt, hrne] at h
          subst hrest
          have hdig : ∀ d ∈ c :: cs, d.isDigit = true := by
            intro d hd
            rcases List.mem_cons.mp hd with rfl | hd2
            · exact hc
            · exact scanDigits_rest_nil cs (digitVal c) w hscan d hd2
          refine ⟨s.takeWhile isCSpace, ['-'], c :: cs, ?_, hws,
            Or.inr (Or.inr rfl), by simp, hdig, ?_⟩
          · conv_lhs => rw [← hsplit]
            simp
          · have heq : scanDigits (digitVal c) cs =
                (digitsToNat (c :: cs), []) := by
              rw [scanDigits_all_digits cs (digitVal c)
                (fun d hd => hdig d (List.mem_cons_of_mem _ hd)),
                digitsToNat_cons]
            rw [heq] at hscan
            have hw : w = digitsToNat (c :: cs) :=
              (congrArg Prod.fst hscan).symm
            omega
    · by_cases ha2 : a = '+'
      · subst ha2
        simp only [show signOf ('+' :: u) = (false, u) from by
          simp [signOf]] at h
        cases u with
        | nil => simp [convertDigits] at h
        | cons c cs =>
          by_cases hc : c.isDigit = true
          case neg => simp [convertDigits, hc] at h
          case pos =>
          rcases hscan : scanDigits (digitVal c) cs with ⟨w, rest⟩
          by_cases hgt : w > UINTMAX_MAX
          · simp [convertDigits, hc, hscan, hgt] at h
          · have hrest : rest = [] := by
              by_contra hrne
              simp [convertDigits, hc, hscan, hgt, hrne] at h
            subst hrest
            have hdig : ∀ d ∈ c :: cs, d.isDigit = true := by
              intro d hd
              rcases List.mem_cons.mp hd with rfl | hd2
              · exact hc
              · exact scanDigits_rest_nil cs (digitVal c) w hscan d hd2
            refine ⟨s.takeWhile isCSpace, ['+'], c :: cs, ?_, hws,
              Or.inr (Or.inl rfl), by simp, hdig, ?_⟩
            · conv_lhs => rw [← hsplit]
              simp
            · have heq : scanDigits (digitVal c) cs =
                  (digitsToNat (c :: cs), []) := by
                rw [scanDigits_all_digits cs (digitVal c)
                  (fun d hd => hdig d (List.mem_cons_of_mem _ hd)),
                  digitsToNat_cons]
              rw [heq] at hscan
              have hw : w = digitsToNat (c :: cs) :=
                (congrArg Prod.fst hscan).symm
              omega
      · simp only [show signOf (a :: u) = (false, a :: u) from by
          simp [signOf, ha1, ha2]] at h
        by_cases hc : a.isDigit = true
        case neg => simp [convertDigits, hc] at h
        case pos =>
        rcases hscan : scanDigits (digitVal a) u with ⟨w, rest⟩
        by_cases hgt : w > UINTMAX_MAX
        · simp [convertDigits, hc, hscan, hgt] at h
        · have hrest : rest = [] := by
            by_contra hrne
            simp [convertDigits, hc, hscan, hgt, hrne] at h
          subst hrest
          have hdig : ∀ d ∈ a :: u, d.isDigit = true := by
            intro d hd
            rcases List.mem_cons.mp hd with rfl | hd2
            · exact hc
            · exact scanDigits_rest_nil u (digitVal a) w hscan d hd2
          refine ⟨s.takeWhile isCSpace, [], a :: u, ?_, hws,
            Or.inl rfl, by simp, hdig, ?_⟩
          · conv_lhs => rw [← hsplit]
            simp
          · have heq : scanDigits (digitVal a) u =
                (digitsToNat (a :: u), []) := by
              rw [scanDigits_all_digits u (digitVal a)
                (fun d hd => hdig d (List.mem_cons_of_mem _ hd)),
                digitsToNat_cons]
            rw [heq] at hscan
            have hw : w = digitsToNat (a :: u) :=
              (congrArg Prod.fst hscan).symm
            omega

/-- Counterexample to C7 as stated: the string "-5" is not the decimal
text of a non-negative integer, yet the delay_us handler accepts it —
strtoumax consumes the minus sign and wraps the value modulo 2^64, so
xstr2umax returns success with 2^64 - 5 and the handler reports no
parse error. -/
theorem C7_counterexample :
    conf_handler_delay_us ['-', '5'] = some (2 ^ 64 - 5) ∧
    conf_handler_delay_us ['-', '5'] ≠ none := by
  refine ⟨by decide, ?_⟩
  intro h
  rw [show conf_handler_delay_us ['-', '5'] = some (2 ^ 64 - 5) from by decide]
    at h
  exact Option.noConfusion h

/-- C7 amended: configuration loading accepts a delay_us value string
exactly when, after optional leading white space, it is an optionally
signed ('+' or '-') nonempty run of decimal digits that reaches the
end of the string and whose digit magnitude is at most UINTMAX_MAX =
2^64 - 1; in particular a minus-signed numeral is accepted — stored
as its value negated modulo 2^64 — rather than reported as a parse
error. -/
theorem C7_amended_delay_us_acceptance :
    (∀ s : List Char, (conf_handler_delay_us s).isSome = true ↔
      ∃ ws sgn ds, s = ws ++ sgn ++ ds ∧ (∀ c ∈ ws, isCSpace c = true) ∧
        (sgn = [] ∨ sgn = ['+'] ∨ sgn = ['-']) ∧ ds ≠ [] ∧
        (∀ c ∈ ds, c.isDigit = true) ∧ digitsToNat ds ≤ UINTMAX_MAX) ∧
    (∀ ds : List Char, ds ≠ [] → (∀ c ∈ ds, c.isDigit = true) →
      digitsToNat ds ≤ UINTMAX_MAX →
      conf_handler_delay_us ('-' :: ds) =
        some ((2 ^ 64 - digitsToNat ds) % 2 ^ 64)) := by
  constructor
  · intro s
    constructor
    · intro hsome
      rcases Option.isSome_iff_exists.mp hsome with ⟨v, hv⟩
      exact xstr2umax10_some_shape s v hv
    · rintro ⟨ws, sgn, ds, rfl, hws, hsgn, hne, hdig, hle⟩
      rw [show conf_handler_delay_us (ws ++ sgn ++ ds) =
          xstr2umax10 (ws ++ sgn ++ ds) from rfl,
        xstr2umax10_accepts ws sgn ds hws hsgn hne hdig hle]
      rfl
  · intro ds hne hdig hle
    have h := xstr2umax10_accepts [] ['-'] ds (by simp) (Or.inr (Or.inr rfl))
      hne hdig hle
    simpa using h

/-- Witness for C7 amended: " +42" is accepted with value 42, and
"-5" is accepted with value 2^64 - 5. -/
theorem C7_amended_delay_us_acceptance_witness :
    (conf_handler_delay_us [' ', '+', '4', '2']).isSome = true ∧
    conf_handler_delay_us ('-' :: ['5']) =
      some ((2 ^ 64 - digitsToNat ['5']) % 2 ^ 64) :=
  ⟨(C7_amended_delay_us_acceptance.1 [' ', '+', '4', '2']).mpr
      ⟨[' '], ['+'], ['4', '2'], rfl, by decide, Or.inr (Or.inl rfl),
        by simp, by decide, by decide⟩,
   C7_amended_delay_us_acceptance.2 ['5'] (by simp) (by decide) (by decide)⟩

end Modswitch
